import Mathlib

/-
Verification of the MSM DMA IOMMU mapping cache
(drivers/iommu/msm_dma_iommu_mapping.c).

The file embeds the reference-counted mapping cache: the Mapping Record
(struct msm_iommu_map), the per-buffer index (msm_iommu_data::map_list),
the per-device index (device::iommu_map_list), and the four operations
msm_dma_map_sg_attrs, msm_dma_unmap_sg, msm_dma_unmap_all_for_dev and
msm_dma_buf_freed.  The source file also carries a second, kref-based
implementation of the map path (__msm_dma_map_sg); it is embedded
separately further below.

Modelling conventions:
- device and buffer identities, directions and addresses are Nat;
- the attribute bitmask (unsigned long attrs) is modelled as a structure
  with the DMA_ATTR_NO_DELAYED_UNMAP bit as a Boolean field (the numeric
  value of that bit is defined in a header outside this repository) and
  the remaining bits collected in a Nat field;
- the external primitives dma_map_sg_attrs / dma_unmap_sg are opaque: the
  map primitive is an oracle pair (returned nents, with 0 meaning failure,
  plus the dma address it would write into the caller's scatterlist), and
  every invocation of a primitive is recorded in an event trace;
- C mutates a single heap node linked into both intrusive lists; with
  value semantics a refcount update replaces the (unique, by the
  well-formedness invariant) occurrence of the record in both indexes;
- the code runs under dev->iommu_map_lock and data->lock, so the
  embedding is the sequential behaviour of each critical section; the
  mutex_trylock in msm_dma_buf_freed always succeeds sequentially, and
  list_for_each_entry_safe over a list whose current node is freed at
  each step is iteration over the initial list.
-/

abbrev Dev := Nat
abbrev Buf := Nat
abbrev Direction := Nat

/-- The unsigned long attribute bitmask, split into the
DMA_ATTR_NO_DELAYED_UNMAP bit (tested by both map paths) and the remaining
bits (compared only as part of whole-mask equality). -/
structure Attrs where
  no_delayed_unmap : Bool
  rest : Nat
deriving DecidableEq, Repr

/-- The dma_address / dma_length pair of a scatterlist entry. -/
structure SgAddr where
  dma_address : Nat
  dma_length : Nat
deriving DecidableEq, Repr

/-- struct msm_iommu_map, with the fields the refcount-model functions use:
owning device, owning buffer (msm_iommu_data), direction, mapped nents,
refcount (a C int), and the cached scatterlist dma fields (map->sg). -/
structure MsmIommuMap where
  dev : Dev
  data : Buf
  dir : Direction
  nents : Nat
  refcount : Int
  sg : SgAddr
deriving DecidableEq, Repr

/-- Observable external actions: calls of the mapping primitive
dma_map_sg_attrs, calls of the unmapping primitive dma_unmap_sg, the
dmb(ish) barrier on a coherent-device cache hit, and a WARN report. -/
inductive Event where
  | extMap (dev : Dev) (nents : Nat) (dir : Direction) (attrs : Attrs)
  | extUnmap (dev : Dev) (sg : SgAddr) (nents : Nat) (dir : Direction)
  | barrier
  | warn
deriving DecidableEq, Repr

def Event.isExtUnmap : Event → Bool
  | .extUnmap _ _ _ _ => true
  | _ => false

def Event.isWarn : Event → Bool
  | .warn => true
  | _ => false

/-- Number of invocations of the external unmap primitive in a trace. -/
def countExtUnmap (es : List Event) : Nat :=
  es.countP Event.isExtUnmap

/-- Number of consistency warnings reported in a trace. -/
def countWarn (es : List Event) : Nat :=
  es.countP Event.isWarn

/-- The two indexes: data->map_list for every buffer (threaded through
map->data_node) and dev->iommu_map_list for every device (threaded
through map->dev_node). -/
structure MsmState where
  dataIndex : Buf → List MsmIommuMap
  devIndex : Dev → List MsmIommuMap

def emptyState : MsmState :=
  { dataIndex := fun _ => [], devIndex := fun _ => [] }

/-- A state holding exactly one record, linked into the index of its
buffer and the index of its device. -/
def singleState (m : MsmIommuMap) : MsmState :=
  { dataIndex := fun b => if b = m.data then [m] else [],
    devIndex := fun d => if d = m.dev then [m] else [] }

/-- msm_iommu_map_lookup: walk data->map_list and return the record whose
map->dev equals dev. -/
def msm_iommu_map_lookup (s : MsmState) (data : Buf) (dev : Dev) :
    Option MsmIommuMap :=
  (s.dataIndex data).find? (fun m => m.dev == dev)

/-- msm_iommu_map_free: list_del from both intrusive lists, then
dma_unmap_sg(map->dev, &map->sg, map->nents, map->dir), then kfree. -/
def msm_iommu_map_free (s : MsmState) (map : MsmIommuMap) :
    MsmState × Event :=
  ({ dataIndex := fun b =>
       if b = map.data then (s.dataIndex b).erase map else s.dataIndex b,
     devIndex := fun d =>
       if d = map.dev then (s.devIndex d).erase map else s.devIndex d },
   Event.extUnmap map.dev map.sg map.nents map.dir)

/-- The paired list_add of a fresh record into data->map_list and
dev->iommu_map_list (list_add inserts at the head). -/
def insertMap (s : MsmState) (map : MsmIommuMap) : MsmState :=
  { dataIndex := fun b =>
      if b = map.data then map :: s.dataIndex b else s.dataIndex b,
    devIndex := fun d =>
      if d = map.dev then map :: s.devIndex d else s.devIndex d }

/-- A refcount update through the pointer to the shared heap node: with
value semantics, rewrite the occurrence of the old record value in both
indexes (unique in each, by well-formedness). -/
def replaceMap (s : MsmState) (old new : MsmIommuMap) : MsmState :=
  { dataIndex := fun b =>
      if b = old.data then
        (s.dataIndex b).map (fun x => if x = old then new else x)
      else s.dataIndex b,
    devIndex := fun d =>
      if d = old.dev then
        (s.devIndex d).map (fun x => if x = old then new else x)
      else s.devIndex d }

/-- Caller-visible outcome of msm_dma_map_sg_attrs: the returned int
(nents on success, 0 when the mapping primitive fails), the dma fields of
the caller's scatterlist after the call, the new state and the trace. -/
structure MapOut where
  ret : Nat
  sgOut : SgAddr
  state : MsmState
  events : List Event

/-- msm_dma_map_sg_attrs (refcount model, the implementation the unmap
and teardown paths of the file operate with).  Under both locks: look the
record up; on a hit increment the refcount, copy the cached dma fields
into the caller's sg and, for a coherent device, issue dmb(ish); on a
miss invoke dma_map_sg_attrs (oracle extN/extSg, extN = 0 is failure) and,
when it succeeds, build the record with
refcount = 2 - (attrs & DMA_ATTR_NO_DELAYED_UNMAP) and list_add it into
both indexes; the kmalloc uses __GFP_NOFAIL and cannot fail. -/
def msm_dma_map_sg_attrs (coherent : Dev → Bool) (extN : Nat)
    (extSg : SgAddr) (dev : Dev) (sgIn : SgAddr) (nents : Nat)
    (dir : Direction) (buf : Buf) (attrs : Attrs) (s : MsmState) : MapOut :=
  match msm_iommu_map_lookup s buf dev with
  | some map =>
      { ret := nents
        sgOut := map.sg
        state := replaceMap s map { map with refcount := map.refcount + 1 }
        events := if coherent dev then [Event.barrier] else [] }
  | none =>
      if extN = 0 then
        { ret := 0
          sgOut := sgIn
          state := s
          events := [Event.extMap dev nents dir attrs] }
      else
        let not_lazy : Int := if attrs.no_delayed_unmap then 1 else 0
        let map : MsmIommuMap :=
          { dev := dev, data := buf, dir := dir, nents := extN,
            refcount := 2 - not_lazy, sg := extSg }
        { ret := extN
          sgOut := extSg
          state := insertMap s map
          events := [Event.extMap dev nents dir attrs] }

/-- Caller-visible outcome of msm_dma_unmap_sg: the function is void, so
the returned value is the unique Unit value. -/
structure UnmapOut where
  ret : Unit
  state : MsmState
  events : List Event

/-- msm_dma_unmap_sg: under both locks, look the record up; if absent do
nothing; if present decrement the refcount and, exactly when it reaches
zero, msm_iommu_map_free the record. -/
def msm_dma_unmap_sg (dev : Dev) (buf : Buf) (s : MsmState) : UnmapOut :=
  match msm_iommu_map_lookup s buf dev with
  | none => { ret := (), state := s, events := [] }
  | some map =>
      if map.refcount - 1 = 0 then
        let fr := msm_iommu_map_free s map
        { ret := (), state := fr.1, events := [fr.2] }
      else
        { ret := ()
          state := replaceMap s map { map with refcount := map.refcount - 1 }
          events := [] }

/-- Freeing every record of a list in order (list_for_each_entry_safe
where each iteration frees exactly the current node). -/
def freeList (s : MsmState) : List MsmIommuMap → MsmState × List Event
  | [] => (s, [])
  | m :: rest =>
      let fr := msm_iommu_map_free s m
      let tail := freeList fr.1 rest
      (tail.1, fr.2 :: tail.2)

/-- msm_dma_unmap_all_for_dev: under the device lock, free every record
of dev->iommu_map_list unconditionally (no refcount decrement). -/
def msm_dma_unmap_all_for_dev (dev : Dev) (s : MsmState) :
    MsmState × List Event :=
  freeList s (s.devIndex dev)

/-- msm_dma_buf_freed: drain data->map_list, freeing every record
unconditionally.  The mutex_trylock / retry loop only re-runs the pass
when a trylock fails against a concurrent holder; sequentially every
trylock succeeds and one pass frees the whole list.  No warning is
reported on this path. -/
def msm_dma_buf_freed (buf : Buf) (s : MsmState) : MsmState × List Event :=
  freeList s (s.dataIndex buf)

/-- Well-formed states: what holds of the two intrusive lists in C — every
record sits in the list of its own buffer and of its own device, it sits
in its buffer's list exactly when it sits in its device's list (the two
list_add and two list_del are paired), each list holds no duplicate node,
and a (buffer, device) pair has at most one record. -/
structure MsmState.WF (s : MsmState) : Prop where
  data_key : ∀ b m, m ∈ s.dataIndex b → m.data = b
  dev_key : ∀ d m, m ∈ s.devIndex d → m.dev = d
  sync : ∀ m : MsmIommuMap, m ∈ s.dataIndex m.data ↔ m ∈ s.devIndex m.dev
  data_nodup : ∀ b, (s.dataIndex b).Nodup
  dev_nodup : ∀ d, (s.devIndex d).Nodup
  data_uniq : ∀ b m m', m ∈ s.dataIndex b → m' ∈ s.dataIndex b →
    m.dev = m'.dev → m = m'
  dev_uniq : ∀ d m m', m ∈ s.devIndex d → m' ∈ s.devIndex d →
    m.data = m'.data → m = m'

/-- No record for the pair (buf, dev) is reachable from either index. -/
def noRecord (s : MsmState) (buf : Buf) (dev : Dev) : Prop :=
  (∀ m ∈ s.dataIndex buf, m.dev ≠ dev) ∧
  (∀ m ∈ s.devIndex dev, m.data ≠ buf)

instance (s : MsmState) (buf : Buf) (dev : Dev) : Decidable (noRecord s buf dev) := by
  unfold noRecord; infer_instance

/-- N successive msm_dma_map_sg_attrs calls with fixed parameters (the
external-map oracle is only consulted by a call that misses). -/
def doMaps (coherent : Dev → Bool) (extN : Nat) (extSg : SgAddr) (dev : Dev)
    (sgIn : SgAddr) (nents : Nat) (dir : Direction) (buf : Buf)
    (attrs : Attrs) : Nat → MsmState → MsmState × List Event
  | 0, s => (s, [])
  | k + 1, s =>
      let o := msm_dma_map_sg_attrs coherent extN extSg dev sgIn nents dir
        buf attrs s
      let t := doMaps coherent extN extSg dev sgIn nents dir buf attrs k
        o.state
      (t.1, o.events ++ t.2)

/-- N successive msm_dma_unmap_sg calls for the pair (dev, buf). -/
def doUnmaps (dev : Dev) (buf : Buf) : Nat → MsmState → MsmState × List Event
  | 0, s => (s, [])
  | k + 1, s =>
      let o := msm_dma_unmap_sg dev buf s
      let t := doUnmaps dev buf k o.state
      (t.1, o.events ++ t.2)

/-- N Map calls followed by N Unmap calls, with the concatenated trace. -/
def mapUnmapSeq (coherent : Dev → Bool) (extN : Nat) (extSg : SgAddr)
    (dev : Dev) (sgIn : SgAddr) (nents : Nat) (dir : Direction) (buf : Buf)
    (attrs : Attrs) (N : Nat) (s : MsmState) : MsmState × List Event :=
  let m := doMaps coherent extN extSg dev sgIn nents dir buf attrs N s
  let u := doUnmaps dev buf N m.1
  (u.1, m.2 ++ u.2)

/-
The second map-path implementation carried by the source file: the
kref-based __msm_dma_map_sg.  Its struct msm_iommu_map variant keys a
buffer's records by device inside a per-buffer msm_iommu_meta, compares a
repeated request against the cached nents, direction, whole attribute
mask and physical start address, and refuses a differing request with
-EINVAL.  Allocation of the record and of the cloned scatterlist can
fail (plain GFP_KERNEL kmalloc), modelled by Boolean oracles.
-/

/-- The fields of the kref-based struct msm_iommu_map variant used by
__msm_dma_map_sg: device, nents and direction of the mapping, the whole
attribute mask and physical buffer start recorded for the consistency
check, the cloned scatterlist's dma fields, and the kref counter. -/
structure IommuMapU where
  dev : Dev
  nents : Nat
  dir : Direction
  map_attrs : Attrs
  buf_start_addr : Nat
  sgl : SgAddr
  ref : Nat
deriving DecidableEq, Repr

/-- Modelled from the spec: msm_iommu_lookup is called by
__msm_dma_map_sg but its body is not part of the file; the spec (§4.1
step 2) says Map looks up the existing record in the buffer's index by
device identity, exactly as the present msm_iommu_map_lookup does. -/
def msm_iommu_lookup (maps : List IommuMapU) (dev : Dev) :
    Option IommuMapU :=
  maps.find? (fun m => m.dev == dev)

/-- Outcome of __msm_dma_map_sg: the returned int (input nents on a hit,
the mapping primitive's nents on a successful miss, 0 when the primitive
fails, -ENOMEM = -12 on allocation failure, -EINVAL = -22 on a
consistency mismatch), the caller's sg dma fields, and the buffer's
record list afterwards. -/
structure MapOutU where
  ret : Int
  sgOut : SgAddr
  maps : List IommuMapU

/-- __msm_dma_map_sg, the region under iommu_meta->lock (the meta
lookup/create layer above it manages only the meta's own kref).  On a
miss: kmalloc the record (may fail), call dma_map_sg_attrs (0 = failure),
clone the scatterlist (may fail), then kref_init the record to 1, take a
second reference when DMA_ATTR_NO_DELAYED_UNMAP is absent, and
msm_iommu_add it to the buffer's list (modelled from the spec as
insertion into the buffer's index).  On a hit: if nents, direction, the
whole attribute mask and the physical start address all match, return the
cached dma fields and take a reference; otherwise report the difference
and fail with -EINVAL, leaving the record untouched. -/
def __msm_dma_map_sg (kmallocOk : Bool) (extRet : Nat) (extSg : SgAddr)
    (cloneOk : Bool) (dev : Dev) (sgIn : SgAddr) (sgPhys : Nat)
    (nents : Nat) (dir : Direction) (attrs : Attrs)
    (maps : List IommuMapU) : MapOutU :=
  let late_unmap := !attrs.no_delayed_unmap
  match msm_iommu_lookup maps dev with
  | none =>
      if !kmallocOk then { ret := -12, sgOut := sgIn, maps := maps }
      else if extRet = 0 then { ret := 0, sgOut := sgIn, maps := maps }
      else if !cloneOk then { ret := -12, sgOut := sgIn, maps := maps }
      else
        let m : IommuMapU :=
          { dev := dev, nents := nents, dir := dir, map_attrs := attrs,
            buf_start_addr := sgPhys, sgl := extSg,
            ref := if late_unmap then 2 else 1 }
        { ret := (extRet : Int), sgOut := extSg, maps := m :: maps }
  | some m =>
      if nents = m.nents ∧ dir = m.dir ∧ attrs = m.map_attrs ∧
          sgPhys = m.buf_start_addr then
        { ret := (nents : Int), sgOut := m.sgl,
          maps := maps.map (fun x =>
            if x = m then { m with ref := m.ref + 1 } else x) }
      else
        { ret := -22, sgOut := sgIn, maps := maps }

/-- msm_iommu_meta_destroy: when the last meta reference drops, a
non-empty record list raises one WARN for the buffer before the meta is
unlinked and freed (it frees no record itself). -/
def msm_iommu_meta_destroy (metaMaps : List IommuMapU) : List Event :=
  if metaMaps.isEmpty then [] else [Event.warn]

/-! Generic list lemmas about the update-in-place and find?-based lookup
patterns the embedding uses. -/

theorem mem_replace_iff {α : Type} [DecidableEq α] {l : List α}
    {old new x : α} :
    x ∈ l.map (fun y => if y = old then new else y) ↔
      (x = new ∧ old ∈ l) ∨ (x ∈ l ∧ x ≠ old) := by
  constructor
  · intro hx
    rcases List.mem_map.1 hx with ⟨y, hy, hfy⟩
    by_cases h : y = old
    · subst h
      rw [if_pos rfl] at hfy
      exact Or.inl ⟨hfy.symm, hy⟩
    · rw [if_neg h] at hfy
      subst hfy
      exact Or.inr ⟨hy, h⟩
  · rintro (⟨rfl, hold⟩ | ⟨hx, hne⟩)
    · exact List.mem_map.2 ⟨old, hold, by rw [if_pos rfl]⟩
    · exact List.mem_map.2 ⟨x, hx, by rw [if_neg hne]⟩

theorem find?_replace {α : Type} [DecidableEq α] {p : α → Bool}
    {old new : α} (hp : p new = true) :
    ∀ {l : List α}, l.find? p = some old →
      (l.map (fun y => if y = old then new else y)).find? p = some new := by
  intro l
  induction l with
  | nil => intro h; simp at h
  | cons a t ih =>
      intro h
      by_cases ha : p a
      · rw [List.find?_cons_of_pos _ ha] at h
        obtain rfl : a = old := by injection h
        simp only [List.map_cons, if_pos rfl]
        exact List.find?_cons_of_pos _ hp
      · have hpo : p old = true := List.find?_some h
        rw [List.find?_cons_of_neg _ ha] at h
        have hao : a ≠ old := fun he => ha (he ▸ hpo)
        simp only [List.map_cons, if_neg hao]
        rw [List.find?_cons_of_neg _ ha]
        exact ih h

/-! Elementary facts about msm_iommu_map_lookup. -/

theorem lookup_mem {s : MsmState} {buf : Buf} {dev : Dev}
    {m : MsmIommuMap} (h : msm_iommu_map_lookup s buf dev = some m) :
    m ∈ s.dataIndex buf ∧ m.dev = dev := by
  refine ⟨List.mem_of_find?_eq_some h, ?_⟩
  have := List.find?_some h
  simpa using this

theorem lookup_none_iff {s : MsmState} {buf : Buf} {dev : Dev} :
    msm_iommu_map_lookup s buf dev = none ↔
      ∀ m ∈ s.dataIndex buf, m.dev ≠ dev := by
  unfold msm_iommu_map_lookup
  rw [List.find?_eq_none]
  simp

theorem lookup_insertMap (s : MsmState) (m : MsmIommuMap) :
    msm_iommu_map_lookup (insertMap s m) m.data m.dev = some m := by
  unfold msm_iommu_map_lookup insertMap
  simp

theorem lookup_replaceMap {s : MsmState} (hWF : s.WF) {buf : Buf}
    {dev : Dev} {old new : MsmIommuMap}
    (h : msm_iommu_map_lookup s buf dev = some old)
    (hdev : new.dev = old.dev) :
    msm_iommu_map_lookup (replaceMap s old new) buf dev = some new := by
  obtain ⟨hmem, hdevold⟩ := lookup_mem h
  have hbuf : old.data = buf := hWF.data_key _ _ hmem
  have hp : (new.dev == dev) = true := by
    simp [hdev, hdevold]
  unfold msm_iommu_map_lookup replaceMap
  simp only [hbuf, if_pos rfl]
  have h' : (s.dataIndex buf).find? (fun m : MsmIommuMap => m.dev == dev)
      = some old := h
  exact find?_replace (p := fun m : MsmIommuMap => m.dev == dev) hp h'

/-! The effect of the three state transformers on each index, stated per
key. -/

theorem free_dataIndex (s : MsmState) (m : MsmIommuMap) (b : Buf) :
    (msm_iommu_map_free s m).1.dataIndex b =
      if b = m.data then (s.dataIndex b).erase m else s.dataIndex b := rfl

theorem free_devIndex (s : MsmState) (m : MsmIommuMap) (d : Dev) :
    (msm_iommu_map_free s m).1.devIndex d =
      if d = m.dev then (s.devIndex d).erase m else s.devIndex d := rfl

theorem insert_dataIndex (s : MsmState) (m : MsmIommuMap) (b : Buf) :
    (insertMap s m).dataIndex b =
      if b = m.data then m :: s.dataIndex b else s.dataIndex b := rfl

theorem insert_devIndex (s : MsmState) (m : MsmIommuMap) (d : Dev) :
    (insertMap s m).devIndex d =
      if d = m.dev then m :: s.devIndex d else s.devIndex d := rfl

theorem replace_dataIndex (s : MsmState) (old new : MsmIommuMap) (b : Buf) :
    (replaceMap s old new).dataIndex b =
      if b = old.data then
        (s.dataIndex b).map (fun x => if x = old then new else x)
      else s.dataIndex b := rfl

theorem replace_devIndex (s : MsmState) (old new : MsmIommuMap) (d : Dev) :
    (replaceMap s old new).devIndex d =
      if d = old.dev then
        (s.devIndex d).map (fun x => if x = old then new else x)
      else s.devIndex d := rfl

/-! Preservation of well-formedness by the three state transformers. -/

theorem mapFree_WF {s : MsmState} (hWF : s.WF) (m : MsmIommuMap) :
    (msm_iommu_map_free s m).1.WF := by
  constructor
  · intro b x hx
    rw [free_dataIndex] at hx
    by_cases hb : b = m.data
    · rw [if_pos hb] at hx
      exact hWF.data_key b x (List.mem_of_mem_erase hx)
    · rw [if_neg hb] at hx
      exact hWF.data_key b x hx
  · intro d x hx
    rw [free_devIndex] at hx
    by_cases hd : d = m.dev
    · rw [if_pos hd] at hx
      exact hWF.dev_key d x (List.mem_of_mem_erase hx)
    · rw [if_neg hd] at hx
      exact hWF.dev_key d x hx
  · intro x
    by_cases hxm : x = m
    · subst hxm
      have hD : x ∉ (msm_iommu_map_free s x).1.dataIndex x.data := by
        rw [free_dataIndex, if_pos rfl]
        intro hx
        exact (((hWF.data_nodup x.data).mem_erase_iff).1 hx).1 rfl
      have hV : x ∉ (msm_iommu_map_free s x).1.devIndex x.dev := by
        rw [free_devIndex, if_pos rfl]
        intro hx
        exact (((hWF.dev_nodup x.dev).mem_erase_iff).1 hx).1 rfl
      exact ⟨fun hx => absurd hx hD, fun hx => absurd hx hV⟩
    · have hD : x ∈ (msm_iommu_map_free s m).1.dataIndex x.data ↔
          x ∈ s.dataIndex x.data := by
        rw [free_dataIndex]
        split
        · exact List.mem_erase_of_ne hxm
        · exact Iff.rfl
      have hV : x ∈ (msm_iommu_map_free s m).1.devIndex x.dev ↔
          x ∈ s.devIndex x.dev := by
        rw [free_devIndex]
        split
        · exact List.mem_erase_of_ne hxm
        · exact Iff.rfl
      rw [hD, hV]
      exact hWF.sync x
  · intro b
    rw [free_dataIndex]
    split
    · exact (hWF.data_nodup b).erase m
    · exact hWF.data_nodup b
  · intro d
    rw [free_devIndex]
    split
    · exact (hWF.dev_nodup d).erase m
    · exact hWF.dev_nodup d
  · intro b x y hx hy hdev
    rw [free_dataIndex] at hx hy
    have hx' : x ∈ s.dataIndex b := by
      by_cases hb : b = m.data
      · rw [if_pos hb] at hx; exact List.mem_of_mem_erase hx
      · rw [if_neg hb] at hx; exact hx
    have hy' : y ∈ s.dataIndex b := by
      by_cases hb : b = m.data
      · rw [if_pos hb] at hy; exact List.mem_of_mem_erase hy
      · rw [if_neg hb] at hy; exact hy
    exact hWF.data_uniq b x y hx' hy' hdev
  · intro d x y hx hy hdata
    rw [free_devIndex] at hx hy
    have hx' : x ∈ s.devIndex d := by
      by_cases hd : d = m.dev
      · rw [if_pos hd] at hx; exact List.mem_of_mem_erase hx
      · rw [if_neg hd] at hx; exact hx
    have hy' : y ∈ s.devIndex d := by
      by_cases hd : d = m.dev
      · rw [if_pos hd] at hy; exact List.mem_of_mem_erase hy
      · rw [if_neg hd] at hy; exact hy
    exact hWF.dev_uniq d x y hx' hy' hdata

theorem insertMap_WF {s : MsmState} (hWF : s.WF) {m : MsmIommuMap}
    (hnone : msm_iommu_map_lookup s m.data m.dev = none) :
    (insertMap s m).WF := by
  have hnd : ∀ x ∈ s.dataIndex m.data, x.dev ≠ m.dev :=
    lookup_none_iff.1 hnone
  have hmem_data : m ∉ s.dataIndex m.data := fun h => hnd m h rfl
  have hmem_dev : m ∉ s.devIndex m.dev := fun h =>
    hmem_data ((hWF.sync m).2 h)
  constructor
  · intro b x hx
    rw [insert_dataIndex] at hx
    by_cases hb : b = m.data
    · rw [if_pos hb] at hx
      rcases List.mem_cons.1 hx with rfl | hx
      · exact hb.symm
      · exact hWF.data_key b x hx
    · rw [if_neg hb] at hx
      exact hWF.data_key b x hx
  · intro d x hx
    rw [insert_devIndex] at hx
    by_cases hd : d = m.dev
    · rw [if_pos hd] at hx
      rcases List.mem_cons.1 hx with rfl | hx
      · exact hd.symm
      · exact hWF.dev_key d x hx
    · rw [if_neg hd] at hx
      exact hWF.dev_key d x hx
  · intro x
    by_cases hxm : x = m
    · subst hxm
      have h1 : x ∈ (insertMap s x).dataIndex x.data := by
        rw [insert_dataIndex, if_pos rfl]
        exact List.mem_cons_self x _
      have h2 : x ∈ (insertMap s x).devIndex x.dev := by
        rw [insert_devIndex, if_pos rfl]
        exact List.mem_cons_self x _
      exact ⟨fun _ => h2, fun _ => h1⟩
    · have hD : x ∈ (insertMap s m).dataIndex x.data ↔
          x ∈ s.dataIndex x.data := by
        rw [insert_dataIndex]
        split
        · exact ⟨fun hx => (List.mem_cons.1 hx).resolve_left hxm,
            fun hx => List.mem_cons_of_mem _ hx⟩
        · exact Iff.rfl
      have hV : x ∈ (insertMap s m).devIndex x.dev ↔
          x ∈ s.devIndex x.dev := by
        rw [insert_devIndex]
        split
        · exact ⟨fun hx => (List.mem_cons.1 hx).resolve_left hxm,
            fun hx => List.mem_cons_of_mem _ hx⟩
        · exact Iff.rfl
      rw [hD, hV]
      exact hWF.sync x
  · intro b
    rw [insert_dataIndex]
    by_cases hb : b = m.data
    · rw [if_pos hb]
      exact List.nodup_cons.2 ⟨by rw [hb]; exact hmem_data, hWF.data_nodup b⟩
    · rw [if_neg hb]
      exact hWF.data_nodup b
  · intro d
    rw [insert_devIndex]
    by_cases hd : d = m.dev
    · rw [if_pos hd]
      exact List.nodup_cons.2 ⟨by rw [hd]; exact hmem_dev, hWF.dev_nodup d⟩
    · rw [if_neg hd]
      exact hWF.dev_nodup d
  · intro b x y hx hy hdev
    rw [insert_dataIndex] at hx hy
    by_cases hb : b = m.data
    · rw [if_pos hb] at hx hy
      rcases List.mem_cons.1 hx with hxm | hx2 <;>
        rcases List.mem_cons.1 hy with hym | hy2
      · rw [hxm, hym]
      · rw [hxm] at hdev
        exact absurd hdev.symm (hnd y (hb ▸ hy2))
      · rw [hym] at hdev
        exact absurd hdev (hnd x (hb ▸ hx2))
      · exact hWF.data_uniq b x y hx2 hy2 hdev
    · rw [if_neg hb] at hx hy
      exact hWF.data_uniq b x y hx hy hdev
  · intro d x y hx hy hdata
    rw [insert_devIndex] at hx hy
    by_cases hd : d = m.dev
    · rw [if_pos hd] at hx hy
      rcases List.mem_cons.1 hx with hxm | hx2 <;>
        rcases List.mem_cons.1 hy with hym | hy2
      · rw [hxm, hym]
      · rw [hxm] at hdata
        have hy' : y ∈ s.devIndex m.dev := hd ▸ hy2
        have hydev : y.dev = m.dev := hWF.dev_key _ _ hy'
        have hymem : y ∈ s.dataIndex y.data :=
          (hWF.sync y).2 (by rw [hydev]; exact hy')
        have hymem' : y ∈ s.dataIndex m.data := by
          rw [← hdata] at hymem
          exact hymem
        exact absurd hydev (hnd y hymem')
      · rw [hym] at hdata
        have hx' : x ∈ s.devIndex m.dev := hd ▸ hx2
        have hxdev : x.dev = m.dev := hWF.dev_key _ _ hx'
        have hxmem : x ∈ s.dataIndex x.data :=
          (hWF.sync x).2 (by rw [hxdev]; exact hx')
        have hxmem' : x ∈ s.dataIndex m.data := by
          rw [hdata] at hxmem
          exact hxmem
        exact absurd hxdev (hnd x hxmem')
      · exact hWF.dev_uniq d x y hx2 hy2 hdata
    · rw [if_neg hd] at hx hy
      exact hWF.dev_uniq d x y hx hy hdata

theorem replaceMap_WF {s : MsmState} (hWF : s.WF) {old new : MsmIommuMap}
    (hmem : old ∈ s.dataIndex old.data)
    (hdata : new.data = old.data) (hdev : new.dev = old.dev)
    (hne : new ≠ old) : (replaceMap s old new).WF := by
  have hmemV : old ∈ s.devIndex old.dev := (hWF.sync old).1 hmem
  have hnewD : new ∉ s.dataIndex old.data := fun h =>
    hne (hWF.data_uniq old.data new old h hmem hdev)
  have hnewV : new ∉ s.devIndex old.dev := fun h =>
    hne (hWF.dev_uniq old.dev new old h hmemV hdata)
  constructor
  · intro b x hx
    rw [replace_dataIndex] at hx
    by_cases hb : b = old.data
    · rw [if_pos hb] at hx
      rcases mem_replace_iff.1 hx with ⟨hxn, _⟩ | ⟨hx2, _⟩
      · rw [hxn, hdata, hb]
      · exact hWF.data_key b x hx2
    · rw [if_neg hb] at hx
      exact hWF.data_key b x hx
  · intro d x hx
    rw [replace_devIndex] at hx
    by_cases hd : d = old.dev
    · rw [if_pos hd] at hx
      rcases mem_replace_iff.1 hx with ⟨hxn, _⟩ | ⟨hx2, _⟩
      · rw [hxn, hdev, hd]
      · exact hWF.dev_key d x hx2
    · rw [if_neg hd] at hx
      exact hWF.dev_key d x hx
  · intro x
    by_cases hxn : x = new
    · subst hxn
      have hD : x ∈ (replaceMap s old x).dataIndex x.data := by
        rw [replace_dataIndex, if_pos hdata]
        exact mem_replace_iff.2 (Or.inl ⟨rfl, by rw [hdata]; exact hmem⟩)
      have hV : x ∈ (replaceMap s old x).devIndex x.dev := by
        rw [replace_devIndex, if_pos hdev]
        exact mem_replace_iff.2 (Or.inl ⟨rfl, by rw [hdev]; exact hmemV⟩)
      exact ⟨fun _ => hV, fun _ => hD⟩
    · by_cases hxo : x = old
      · subst hxo
        have hD : x ∉ (replaceMap s x new).dataIndex x.data := by
          rw [replace_dataIndex, if_pos rfl]
          intro hx
          rcases mem_replace_iff.1 hx with ⟨he, _⟩ | ⟨_, hno⟩
          · exact hxn he
          · exact hno rfl
        have hV : x ∉ (replaceMap s x new).devIndex x.dev := by
          rw [replace_devIndex, if_pos rfl]
          intro hx
          rcases mem_replace_iff.1 hx with ⟨he, _⟩ | ⟨_, hno⟩
          · exact hxn he
          · exact hno rfl
        exact ⟨fun hx => absurd hx hD, fun hx => absurd hx hV⟩
      · have hD : x ∈ (replaceMap s old new).dataIndex x.data ↔
            x ∈ s.dataIndex x.data := by
          rw [replace_dataIndex]
          split
          · constructor
            · intro hx
              rcases mem_replace_iff.1 hx with ⟨he, _⟩ | ⟨hx2, _⟩
              · exact absurd he hxn
              · exact hx2
            · intro hx
              exact mem_replace_iff.2 (Or.inr ⟨hx, hxo⟩)
          · exact Iff.rfl
        have hV : x ∈ (replaceMap s old new).devIndex x.dev ↔
            x ∈ s.devIndex x.dev := by
          rw [replace_devIndex]
          split
          · constructor
            · intro hx
              rcases mem_replace_iff.1 hx with ⟨he, _⟩ | ⟨hx2, _⟩
              · exact absurd he hxn
              · exact hx2
            · intro hx
              exact mem_replace_iff.2 (Or.inr ⟨hx, hxo⟩)
          · exact Iff.rfl
        rw [hD, hV]
        exact hWF.sync x
  · intro b
    rw [replace_dataIndex]
    by_cases hb : b = old.data
    · rw [if_pos hb]
      refine (hWF.data_nodup b).map_on ?_
      intro x hx y hy hxy
      by_cases hxo : x = old <;> by_cases hyo : y = old
      · rw [hxo, hyo]
      · rw [if_pos hxo, if_neg hyo] at hxy
        exfalso
        apply hnewD
        rw [← hb]
        rw [hxy]
        exact hy
      · rw [if_neg hxo, if_pos hyo] at hxy
        exfalso
        apply hnewD
        rw [← hb]
        rw [← hxy]
        exact hx
      · rw [if_neg hxo, if_neg hyo] at hxy
        exact hxy
    · rw [if_neg hb]
      exact hWF.data_nodup b
  · intro d
    rw [replace_devIndex]
    by_cases hd : d = old.dev
    · rw [if_pos hd]
      refine (hWF.dev_nodup d).map_on ?_
      intro x hx y hy hxy
      by_cases hxo : x = old <;> by_cases hyo : y = old
      · rw [hxo, hyo]
      · rw [if_pos hxo, if_neg hyo] at hxy
        exfalso
        apply hnewV
        rw [← hd]
        rw [hxy]
        exact hy
      · rw [if_neg hxo, if_pos hyo] at hxy
        exfalso
        apply hnewV
        rw [← hd]
        rw [← hxy]
        exact hx
      · rw [if_neg hxo, if_neg hyo] at hxy
        exact hxy
    · rw [if_neg hd]
      exact hWF.dev_nodup d
  · intro b x y hx hy hdev2
    rw [replace_dataIndex] at hx hy
    by_cases hb : b = old.data
    · rw [if_pos hb] at hx hy
      rcases mem_replace_iff.1 hx with ⟨hxn, holdx⟩ | ⟨hx2, hxo⟩ <;>
        rcases mem_replace_iff.1 hy with ⟨hyn, holdy⟩ | ⟨hy2, hyo⟩
      · rw [hxn, hyn]
      · exfalso
        apply hyo
        refine hWF.data_uniq b y old hy2 holdx ?_
        rw [← hdev2, hxn, hdev]
      · exfalso
        apply hxo
        refine hWF.data_uniq b x old hx2 holdy ?_
        rw [hdev2, hyn, hdev]
      · exact hWF.data_uniq b x y hx2 hy2 hdev2
    · rw [if_neg hb] at hx hy
      exact hWF.data_uniq b x y hx hy hdev2
  · intro d x y hx hy hdata2
    rw [replace_devIndex] at hx hy
    by_cases hd : d = old.dev
    · rw [if_pos hd] at hx hy
      rcases mem_replace_iff.1 hx with ⟨hxn, holdx⟩ | ⟨hx2, hxo⟩ <;>
        rcases mem_replace_iff.1 hy with ⟨hyn, holdy⟩ | ⟨hy2, hyo⟩
      · rw [hxn, hyn]
      · exfalso
        apply hyo
        refine hWF.dev_uniq d y old hy2 holdx ?_
        rw [← hdata2, hxn, hdata]
      · exfalso
        apply hxo
        refine hWF.dev_uniq d x old hx2 holdy ?_
        rw [hdata2, hyn, hdata]
      · exact hWF.dev_uniq d x y hx2 hy2 hdata2
    · rw [if_neg hd] at hx hy
      exact hWF.dev_uniq d x y hx hy hdata2

/-- Freeing the record found for (buf, dev) leaves no record for that
pair in either index. -/
theorem noRecord_free {s : MsmState} (hWF : s.WF) {buf : Buf} {dev : Dev}
    {m : MsmIommuMap} (h : msm_iommu_map_lookup s buf dev = some m) :
    noRecord (msm_iommu_map_free s m).1 buf dev := by
  obtain ⟨hmem, hdev⟩ := lookup_mem h
  have hbuf : m.data = buf := hWF.data_key _ _ hmem
  have hmemV : m ∈ s.devIndex m.dev :=
    (hWF.sync m).1 (by rw [hbuf]; exact hmem)
  constructor
  · intro x hx hxdev
    rw [free_dataIndex, if_pos hbuf.symm] at hx
    have h2 := ((hWF.data_nodup buf).mem_erase_iff).1 hx
    exact h2.1 (hWF.data_uniq buf x m h2.2 hmem (by rw [hxdev, hdev]))
  · intro x hx hxdata
    rw [free_devIndex, if_pos hdev.symm] at hx
    have h2 := ((hWF.dev_nodup dev).mem_erase_iff).1 hx
    have hmemV' : m ∈ s.devIndex dev := by
      rw [← hdev]
      exact hmemV
    exact h2.1 (hWF.dev_uniq dev x m h2.2 hmemV' (by rw [hxdata, hbuf]))

/-- Draining a list that carries exactly the records of a device's index
empties that index, removes exactly those records from every buffer
index, and emits one external-unmap call per record. -/
theorem freeList_dev {d : Dev} :
    ∀ (l : List MsmIommuMap) (s : MsmState), s.WF →
      (∀ m ∈ l, m.dev = d) → l.Nodup →
      (∀ m ∈ l, m ∈ s.devIndex d) →
      (∀ m ∈ s.devIndex d, m ∈ l) →
      (freeList s l).1.WF ∧ (freeList s l).1.devIndex d = [] ∧
        (∀ b x, x ∈ (freeList s l).1.dataIndex b →
          x ∈ s.dataIndex b ∧ x ∉ l) ∧
        (freeList s l).2 =
          l.map (fun m => Event.extUnmap m.dev m.sg m.nents m.dir) := by
  intro l
  induction l with
  | nil =>
      intro s hWF _ _ _ hsub
      refine ⟨hWF, ?_, ?_, rfl⟩
      · exact List.eq_nil_iff_forall_not_mem.2
          (fun x hx => List.not_mem_nil x (hsub x hx))
      · intro b x hx
        exact ⟨hx, List.not_mem_nil x⟩
  | cons m rest ih =>
      intro s hWF hdevs hnodup hmeml hsub
      have hWF1 : (msm_iommu_map_free s m).1.WF := mapFree_WF hWF m
      have hmdev : m.dev = d := hdevs m (List.mem_cons_self m rest)
      have hnodup' := List.nodup_cons.1 hnodup
      have hs1dev : (msm_iommu_map_free s m).1.devIndex d =
          (s.devIndex d).erase m := by
        rw [free_devIndex, if_pos hmdev.symm]
      have h1 : ∀ x ∈ rest, x.dev = d := fun x hx =>
        hdevs x (List.mem_cons_of_mem m hx)
      have h3 : ∀ x ∈ rest, x ∈ (msm_iommu_map_free s m).1.devIndex d := by
        intro x hx
        rw [hs1dev]
        have hxm : x ≠ m := fun he => hnodup'.1 (he ▸ hx)
        exact (List.mem_erase_of_ne hxm).2
          (hmeml x (List.mem_cons_of_mem m hx))
      have h4 : ∀ x ∈ (msm_iommu_map_free s m).1.devIndex d, x ∈ rest := by
        intro x hx
        rw [hs1dev] at hx
        have h2 := ((hWF.dev_nodup d).mem_erase_iff).1 hx
        rcases List.mem_cons.1 (hsub x h2.2) with he | hr
        · exact absurd he h2.1
        · exact hr
      obtain ⟨hWFf, hdevf, hdataf, hevf⟩ :=
        ih (msm_iommu_map_free s m).1 hWF1 h1 hnodup'.2 h3 h4
      refine ⟨hWFf, hdevf, ?_, ?_⟩
      · intro b x hx
        obtain ⟨hx1, hx2⟩ := hdataf b x hx
        rw [free_dataIndex] at hx1
        by_cases hb : b = m.data
        · rw [if_pos hb] at hx1
          have h2 := ((hWF.data_nodup b).mem_erase_iff).1 hx1
          refine ⟨h2.2, ?_⟩
          intro hmem2
          rcases List.mem_cons.1 hmem2 with he | hr
          · exact h2.1 he
          · exact hx2 hr
        · rw [if_neg hb] at hx1
          refine ⟨hx1, ?_⟩
          intro hmem2
          rcases List.mem_cons.1 hmem2 with he | hr
          · apply hb
            rw [← hWF.data_key b x hx1, he]
          · exact hx2 hr
      · show (msm_iommu_map_free s m).2 ::
            (freeList (msm_iommu_map_free s m).1 rest).2 = _
        rw [hevf]
        rfl

/-- The buffer-side mirror of freeList_dev: draining exactly the records
of a buffer's index. -/
theorem freeList_data {b : Buf} :
    ∀ (l : List MsmIommuMap) (s : MsmState), s.WF →
      (∀ m ∈ l, m.data = b) → l.Nodup →
      (∀ m ∈ l, m ∈ s.dataIndex b) →
      (∀ m ∈ s.dataIndex b, m ∈ l) →
      (freeList s l).1.WF ∧ (freeList s l).1.dataIndex b = [] ∧
        (∀ d x, x ∈ (freeList s l).1.devIndex d →
          x ∈ s.devIndex d ∧ x ∉ l) ∧
        (freeList s l).2 =
          l.map (fun m => Event.extUnmap m.dev m.sg m.nents m.dir) := by
  intro l
  induction l with
  | nil =>
      intro s hWF _ _ _ hsub
      refine ⟨hWF, ?_, ?_, rfl⟩
      · exact List.eq_nil_iff_forall_not_mem.2
          (fun x hx => List.not_mem_nil x (hsub x hx))
      · intro d x hx
        exact ⟨hx, List.not_mem_nil x⟩
  | cons m rest ih =>
      intro s hWF hdatas hnodup hmeml hsub
      have hWF1 : (msm_iommu_map_free s m).1.WF := mapFree_WF hWF m
      have hmdata : m.data = b := hdatas m (List.mem_cons_self m rest)
      have hnodup' := List.nodup_cons.1 hnodup
      have hs1data : (msm_iommu_map_free s m).1.dataIndex b =
          (s.dataIndex b).erase m := by
        rw [free_dataIndex, if_pos hmdata.symm]
      have h1 : ∀ x ∈ rest, x.data = b := fun x hx =>
        hdatas x (List.mem_cons_of_mem m hx)
      have h3 : ∀ x ∈ rest, x ∈ (msm_iommu_map_free s m).1.dataIndex b := by
        intro x hx
        rw [hs1data]
        have hxm : x ≠ m := fun he => hnodup'.1 (he ▸ hx)
        exact (List.mem_erase_of_ne hxm).2
          (hmeml x (List.mem_cons_of_mem m hx))
      have h4 : ∀ x ∈ (msm_iommu_map_free s m).1.dataIndex b, x ∈ rest := by
        intro x hx
        rw [hs1data] at hx
        have h2 := ((hWF.data_nodup b).mem_erase_iff).1 hx
        rcases List.mem_cons.1 (hsub x h2.2) with he | hr
        · exact absurd he h2.1
        · exact hr
      obtain ⟨hWFf, hdataf, hdevf, hevf⟩ :=
        ih (msm_iommu_map_free s m).1 hWF1 h1 hnodup'.2 h3 h4
      refine ⟨hWFf, hdataf, ?_, ?_⟩
      · intro d x hx
        obtain ⟨hx1, hx2⟩ := hdevf d x hx
        rw [free_devIndex] at hx1
        by_cases hd : d = m.dev
        · rw [if_pos hd] at hx1
          have h2 := ((hWF.dev_nodup d).mem_erase_iff).1 hx1
          refine ⟨h2.2, ?_⟩
          intro hmem2
          rcases List.mem_cons.1 hmem2 with he | hr
          · exact h2.1 he
          · exact hx2 hr
        · rw [if_neg hd] at hx1
          refine ⟨hx1, ?_⟩
          intro hmem2
          rcases List.mem_cons.1 hmem2 with he | hr
          · apply hd
            rw [← hWF.dev_key d x hx1, he]
          · exact hx2 hr
      · show (msm_iommu_map_free s m).2 ::
            (freeList (msm_iommu_map_free s m).1 rest).2 = _
        rw [hevf]
        rfl

/-! Well-formedness of the concrete states used at specific inputs. -/

theorem emptyState_WF : emptyState.WF := by
  constructor <;> intro x <;> simp [emptyState]

theorem singleState_WF (m : MsmIommuMap) : (singleState m).WF := by
  constructor
  · intro b x hx
    simp only [singleState] at hx
    by_cases hb : b = m.data
    · rw [if_pos hb] at hx
      rw [List.mem_singleton.1 hx, hb]
    · rw [if_neg hb] at hx
      exact absurd hx (List.not_mem_nil x)
  · intro d x hx
    simp only [singleState] at hx
    by_cases hd : d = m.dev
    · rw [if_pos hd] at hx
      rw [List.mem_singleton.1 hx, hd]
    · rw [if_neg hd] at hx
      exact absurd hx (List.not_mem_nil x)
  · intro x
    constructor
    · intro hx
      simp only [singleState] at hx ⊢
      by_cases hb : x.data = m.data
      · rw [if_pos hb] at hx
        rw [List.mem_singleton.1 hx]
        simp
      · rw [if_neg hb] at hx
        exact absurd hx (List.not_mem_nil x)
    · intro hx
      simp only [singleState] at hx ⊢
      by_cases hd : x.dev = m.dev
      · rw [if_pos hd] at hx
        rw [List.mem_singleton.1 hx]
        simp
      · rw [if_neg hd] at hx
        exact absurd hx (List.not_mem_nil x)
  · intro b
    simp only [singleState]
    split <;> simp
  · intro d
    simp only [singleState]
    split <;> simp
  · intro b x y hx hy _
    simp only [singleState] at hx hy
    by_cases hb : b = m.data
    · rw [if_pos hb] at hx hy
      rw [List.mem_singleton.1 hx, List.mem_singleton.1 hy]
    · rw [if_neg hb] at hx
      exact absurd hx (List.not_mem_nil x)
  · intro d x y hx hy _
    simp only [singleState] at hx hy
    by_cases hd : d = m.dev
    · rw [if_pos hd] at hx hy
      rw [List.mem_singleton.1 hx, List.mem_singleton.1 hy]
    · rw [if_neg hd] at hx
      exact absurd hx (List.not_mem_nil x)

/-! Branch equations for msm_dma_map_sg_attrs. -/

theorem map_sg_hit_eq (coherent : Dev → Bool) (extN : Nat) (extSg : SgAddr)
    (dev : Dev) (sgIn : SgAddr) (nents : Nat) (dir : Direction) (buf : Buf)
    (attrs : Attrs) (s : MsmState) {m : MsmIommuMap}
    (h : msm_iommu_map_lookup s buf dev = some m) :
    msm_dma_map_sg_attrs coherent extN extSg dev sgIn nents dir buf attrs
        s =
      { ret := nents, sgOut := m.sg,
        state := replaceMap s m { m with refcount := m.refcount + 1 },
        events := if coherent dev then [Event.barrier] else [] } := by
  unfold msm_dma_map_sg_attrs
  rw [h]

theorem map_sg_miss_fail_eq (coherent : Dev → Bool) (extSg : SgAddr)
    (dev : Dev) (sgIn : SgAddr) (nents : Nat) (dir : Direction) (buf : Buf)
    (attrs : Attrs) (s : MsmState)
    (h : msm_iommu_map_lookup s buf dev = none) :
    msm_dma_map_sg_attrs coherent 0 extSg dev sgIn nents dir buf attrs s =
      { ret := 0, sgOut := sgIn, state := s,
        events := [Event.extMap dev nents dir attrs] } := by
  unfold msm_dma_map_sg_attrs
  rw [h]
  rfl

theorem map_sg_miss_succ_eq (coherent : Dev → Bool) (extN : Nat)
    (extSg : SgAddr) (dev : Dev) (sgIn : SgAddr) (nents : Nat)
    (dir : Direction) (buf : Buf) (attrs : Attrs) (s : MsmState)
    (h : msm_iommu_map_lookup s buf dev = none) (hn : extN ≠ 0) :
    msm_dma_map_sg_attrs coherent extN extSg dev sgIn nents dir buf attrs
        s =
      { ret := extN, sgOut := extSg,
        state := insertMap s
          { dev := dev, data := buf, dir := dir, nents := extN,
            refcount := 2 - (if attrs.no_delayed_unmap then 1 else 0),
            sg := extSg },
        events := [Event.extMap dev nents dir attrs] } := by
  unfold msm_dma_map_sg_attrs
  rw [h, if_neg hn]

theorem lookup_insertMap_of (s : MsmState) {m : MsmIommuMap} {b : Buf}
    {d : Dev} (hb : m.data = b) (hd : m.dev = d) :
    msm_iommu_map_lookup (insertMap s m) b d = some m := by
  subst hb
  subst hd
  exact lookup_insertMap s m

/-- C1: a Map call that misses the cache and whose external mapping
primitive succeeds builds the new record with refcount exactly 2 when
DMA_ATTR_NO_DELAYED_UNMAP is clear in attrs and exactly 1 when it is
set — both in msm_dma_map_sg_attrs (refcount = 2 - not_lazy) and in
__msm_dma_map_sg (kref_init to 1 plus a kref_get exactly when the flag
is clear). -/
theorem C1_refcount_init (coherent : Dev → Bool) (extN : Nat)
    (extSg : SgAddr) (dev : Dev) (sgIn : SgAddr) (nents : Nat)
    (dir : Direction) (buf : Buf) (attrs : Attrs) (s : MsmState)
    (kmallocOk : Bool) (extRet : Nat) (cloneOk : Bool) (sgInU : SgAddr)
    (sgPhys : Nat) (mapsU : List IommuMapU)
    (hmiss : msm_iommu_map_lookup s buf dev = none) (hext : extN ≠ 0)
    (hmissU : msm_iommu_lookup mapsU dev = none) (hkm : kmallocOk = true)
    (hextU : extRet ≠ 0) (hcl : cloneOk = true) :
    (∃ m, msm_iommu_map_lookup
        (msm_dma_map_sg_attrs coherent extN extSg dev sgIn nents dir buf
          attrs s).state buf dev = some m ∧
        m.refcount = if attrs.no_delayed_unmap then 1 else 2) ∧
    (∃ u, (__msm_dma_map_sg kmallocOk extRet extSg cloneOk dev sgInU
        sgPhys nents dir attrs mapsU).maps.head? = some u ∧
        u.ref = if attrs.no_delayed_unmap then 1 else 2) := by
  constructor
  · rw [map_sg_miss_succ_eq coherent extN extSg dev sgIn nents dir buf
      attrs s hmiss hext]
    refine ⟨_, lookup_insertMap_of s rfl rfl, ?_⟩
    by_cases hf : attrs.no_delayed_unmap <;> simp [hf]
  · subst hkm
    subst hcl
    unfold __msm_dma_map_sg
    rw [hmissU]
    simp only [Bool.not_true, Bool.false_eq_true, if_false, hextU,
      ite_false]
    exact ⟨_, rfl, by by_cases hf : attrs.no_delayed_unmap <;> simp [hf]⟩

/-- C1 witness: at a concrete miss with a succeeding primitive and the
flag clear, both new records carry refcount 2. -/
theorem C1_refcount_init_witness :
    msm_iommu_map_lookup emptyState 2 1 = none ∧
    msm_iommu_lookup [] 1 = none ∧
    ((∃ m, msm_iommu_map_lookup
        (msm_dma_map_sg_attrs (fun _ => false) 1 ⟨100, 8⟩ 1 ⟨0, 0⟩ 1 0 2
          ⟨false, 0⟩ emptyState).state 2 1 = some m ∧
        m.refcount = 2) ∧
     (∃ u, (__msm_dma_map_sg true 1 ⟨100, 8⟩ true 1 ⟨0, 0⟩ 5 1 0
        ⟨false, 0⟩ []).maps.head? = some u ∧ u.ref = 2)) :=
  ⟨rfl, rfl, C1_refcount_init (fun _ => false) 1 ⟨100, 8⟩ 1 ⟨0, 0⟩ 1 0 2
    ⟨false, 0⟩ emptyState true 1 true ⟨0, 0⟩ 5 [] rfl (by decide) rfl rfl
    (by decide) rfl⟩

/-- C6: when a Map call misses the cache and the external mapping
primitive fails (returns 0), the call returns the failure, both indexes
are exactly as before, and the caller's scatterlist is untouched. -/
theorem C6_miss_failure_no_change (coherent : Dev → Bool) (extSg : SgAddr)
    (dev : Dev) (sgIn : SgAddr) (nents : Nat) (dir : Direction)
    (buf : Buf) (attrs : Attrs) (s : MsmState)
    (hmiss : msm_iommu_map_lookup s buf dev = none) :
    (msm_dma_map_sg_attrs coherent 0 extSg dev sgIn nents dir buf attrs
      s).ret = 0 ∧
    (msm_dma_map_sg_attrs coherent 0 extSg dev sgIn nents dir buf attrs
      s).state = s ∧
    (msm_dma_map_sg_attrs coherent 0 extSg dev sgIn nents dir buf attrs
      s).sgOut = sgIn := by
  rw [map_sg_miss_fail_eq coherent extSg dev sgIn nents dir buf attrs s
    hmiss]
  exact ⟨rfl, rfl, rfl⟩

/-- C6 witness at a concrete empty state. -/
theorem C6_miss_failure_no_change_witness :
    msm_iommu_map_lookup emptyState 2 1 = none ∧
    ((msm_dma_map_sg_attrs (fun _ => false) 0 ⟨100, 8⟩ 1 ⟨7, 9⟩ 1 0 2
        ⟨false, 0⟩ emptyState).ret = 0 ∧
     (msm_dma_map_sg_attrs (fun _ => false) 0 ⟨100, 8⟩ 1 ⟨7, 9⟩ 1 0 2
        ⟨false, 0⟩ emptyState).state = emptyState ∧
     (msm_dma_map_sg_attrs (fun _ => false) 0 ⟨100, 8⟩ 1 ⟨7, 9⟩ 1 0 2
        ⟨false, 0⟩ emptyState).sgOut = ⟨7, 9⟩) :=
  ⟨rfl, C6_miss_failure_no_change (fun _ => false) ⟨100, 8⟩ 1 ⟨7, 9⟩ 1 0 2
    ⟨false, 0⟩ emptyState rfl⟩

/-- C7: an Unmap call for a pair with no record is a no-op that
succeeds: the whole outcome is the unchanged state, an empty trace (no
external unmap call), and the void return value. -/
theorem C7_unmap_absent_noop (dev : Dev) (buf : Buf) (s : MsmState)
    (hmiss : msm_iommu_map_lookup s buf dev = none) :
    msm_dma_unmap_sg dev buf s =
      { ret := (), state := s, events := [] } := by
  unfold msm_dma_unmap_sg
  rw [hmiss]

/-- C7 witness at a concrete state that holds a record for a different
pair. -/
theorem C7_unmap_absent_noop_witness :
    msm_iommu_map_lookup (singleState ⟨3, 4, 0, 1, 1, ⟨100, 8⟩⟩) 2 1 =
      none ∧
    msm_dma_unmap_sg 1 2 (singleState ⟨3, 4, 0, 1, 1, ⟨100, 8⟩⟩) =
      { ret := (), state := singleState ⟨3, 4, 0, 1, 1, ⟨100, 8⟩⟩,
        events := [] } :=
  ⟨rfl, C7_unmap_absent_noop 1 2 (singleState ⟨3, 4, 0, 1, 1, ⟨100, 8⟩⟩)
    rfl⟩

/-- C10: on the miss path the record allocation cannot fail
(__GFP_NOFAIL): the call returns exactly what the external primitive
returned (failure iff the primitive failed), and whenever the primitive
succeeds a record for the pair is present afterwards. -/
theorem C10_no_oom_after_success (coherent : Dev → Bool) (extN : Nat)
    (extSg : SgAddr) (dev : Dev) (sgIn : SgAddr) (nents : Nat)
    (dir : Direction) (buf : Buf) (attrs : Attrs) (s : MsmState)
    (hmiss : msm_iommu_map_lookup s buf dev = none) :
    (msm_dma_map_sg_attrs coherent extN extSg dev sgIn nents dir buf
      attrs s).ret = extN ∧
    (extN ≠ 0 →
      (msm_iommu_map_lookup (msm_dma_map_sg_attrs coherent extN extSg dev
        sgIn nents dir buf attrs s).state buf dev).isSome = true) := by
  by_cases hn : extN = 0
  · subst hn
    rw [map_sg_miss_fail_eq coherent extSg dev sgIn nents dir buf attrs s
      hmiss]
    exact ⟨rfl, fun h => absurd rfl h⟩
  · rw [map_sg_miss_succ_eq coherent extN extSg dev sgIn nents dir buf
      attrs s hmiss hn]
    refine ⟨rfl, fun _ => ?_⟩
    rw [lookup_insertMap_of s rfl rfl]
    rfl

/-- C10 witness at a concrete miss with a succeeding primitive. -/
theorem C10_no_oom_after_success_witness :
    msm_iommu_map_lookup emptyState 2 1 = none ∧
    ((msm_dma_map_sg_attrs (fun _ => false) 3 ⟨100, 8⟩ 1 ⟨0, 0⟩ 1 0 2
        ⟨false, 0⟩ emptyState).ret = 3 ∧
     ((3 : Nat) ≠ 0 →
      (msm_iommu_map_lookup (msm_dma_map_sg_attrs (fun _ => false) 3
        ⟨100, 8⟩ 1 ⟨0, 0⟩ 1 0 2 ⟨false, 0⟩ emptyState).state 2
        1).isSome = true)) :=
  ⟨rfl, C10_no_oom_after_success (fun _ => false) 3 ⟨100, 8⟩ 1 ⟨0, 0⟩ 1 0
    2 ⟨false, 0⟩ emptyState rfl⟩

theorem unmap_sg_some_eq (dev : Dev) (buf : Buf) (s : MsmState)
    {m : MsmIommuMap} (h : msm_iommu_map_lookup s buf dev = some m) :
    msm_dma_unmap_sg dev buf s =
      if m.refcount - 1 = 0 then
        { ret := (), state := (msm_iommu_map_free s m).1,
          events := [(msm_iommu_map_free s m).2] }
      else
        { ret := (),
          state := replaceMap s m { m with refcount := m.refcount - 1 },
          events := [] } := by
  unfold msm_dma_unmap_sg
  rw [h]

/-- C9: every operation keeps the two indexes synchronised — starting
from a well-formed state (each record linked in the index of its buffer
exactly when it is linked in the index of its device, with at most one
record per (buffer, device) pair) each of the four operations yields a
well-formed state again: records are inserted into both indexes together
(the paired list_add) and removed from both together (the paired
list_del in msm_iommu_map_free), never from one alone. -/
theorem C9_paired_membership (coherent : Dev → Bool) (extN : Nat)
    (extSg : SgAddr) (dev : Dev) (sgIn : SgAddr) (nents : Nat)
    (dir : Direction) (buf : Buf) (attrs : Attrs) (dev2 : Dev)
    (buf2 : Buf) (devAll : Dev) (bufFree : Buf) (s : MsmState)
    (hWF : s.WF) :
    (msm_dma_map_sg_attrs coherent extN extSg dev sgIn nents dir buf
      attrs s).state.WF ∧
    (msm_dma_unmap_sg dev2 buf2 s).state.WF ∧
    (msm_dma_unmap_all_for_dev devAll s).1.WF ∧
    (msm_dma_buf_freed bufFree s).1.WF := by
  refine ⟨?_, ?_, ?_, ?_⟩
  · cases hl : msm_iommu_map_lookup s buf dev with
    | some m =>
        rw [map_sg_hit_eq coherent extN extSg dev sgIn nents dir buf
          attrs s hl]
        obtain ⟨hmem, _⟩ := lookup_mem hl
        have hbuf : m.data = buf := hWF.data_key _ _ hmem
        refine replaceMap_WF hWF ?_ rfl rfl ?_
        · rw [hbuf]
          exact hmem
        · intro he
          have h2 := congrArg MsmIommuMap.refcount he
          simp only [] at h2
          omega
    | none =>
        by_cases hn : extN = 0
        · subst hn
          rw [map_sg_miss_fail_eq coherent extSg dev sgIn nents dir buf
            attrs s hl]
          exact hWF
        · rw [map_sg_miss_succ_eq coherent extN extSg dev sgIn nents dir
            buf attrs s hl hn]
          exact insertMap_WF hWF hl
  · cases hl : msm_iommu_map_lookup s buf2 dev2 with
    | none =>
        unfold msm_dma_unmap_sg
        rw [hl]
        exact hWF
    | some m =>
        rw [unmap_sg_some_eq dev2 buf2 s hl]
        by_cases hz : m.refcount - 1 = 0
        · rw [if_pos hz]
          exact mapFree_WF hWF m
        · rw [if_neg hz]
          obtain ⟨hmem, _⟩ := lookup_mem hl
          have hbuf : m.data = buf2 := hWF.data_key _ _ hmem
          refine replaceMap_WF hWF ?_ rfl rfl ?_
          · rw [hbuf]
            exact hmem
          · intro he
            have h2 := congrArg MsmIommuMap.refcount he
            simp only [] at h2
            omega
  · exact (freeList_dev (s.devIndex devAll) s hWF
      (fun m hm => hWF.dev_key _ m hm) (hWF.dev_nodup devAll)
      (fun m hm => hm) (fun m hm => hm)).1
  · exact (freeList_data (s.dataIndex bufFree) s hWF
      (fun m hm => hWF.data_key _ m hm) (hWF.data_nodup bufFree)
      (fun m hm => hm) (fun m hm => hm)).1

/-- C9 witness at a concrete well-formed one-record state. -/
theorem C9_paired_membership_witness :
    (singleState ⟨1, 2, 0, 1, 2, ⟨100, 8⟩⟩).WF ∧
    ((msm_dma_map_sg_attrs (fun _ => false) 1 ⟨50, 4⟩ 1 ⟨0, 0⟩ 1 0 2
        ⟨false, 0⟩ (singleState ⟨1, 2, 0, 1, 2, ⟨100, 8⟩⟩)).state.WF ∧
     (msm_dma_unmap_sg 1 2
        (singleState ⟨1, 2, 0, 1, 2, ⟨100, 8⟩⟩)).state.WF ∧
     (msm_dma_unmap_all_for_dev 1
        (singleState ⟨1, 2, 0, 1, 2, ⟨100, 8⟩⟩)).1.WF ∧
     (msm_dma_buf_freed 2 (singleState ⟨1, 2, 0, 1, 2, ⟨100, 8⟩⟩)).1.WF) :=
  ⟨singleState_WF ⟨1, 2, 0, 1, 2, ⟨100, 8⟩⟩,
   C9_paired_membership (fun _ => false) 1 ⟨50, 4⟩ 1 ⟨0, 0⟩ 1 0 2
     ⟨false, 0⟩ 1 2 1 2 (singleState ⟨1, 2, 0, 1, 2, ⟨100, 8⟩⟩)
     (singleState_WF ⟨1, 2, 0, 1, 2, ⟨100, 8⟩⟩)⟩

/-- C4: after msm_dma_unmap_all_for_dev(D) the device index of D is
empty, no buffer index holds a record of device D any more, and the
external unmap primitive was invoked for every record that was present —
without any hypothesis on the refcounts (the release is unconditional). -/
theorem C4_device_teardown (d : Dev) (s : MsmState) (hWF : s.WF) :
    (msm_dma_unmap_all_for_dev d s).1.devIndex d = [] ∧
    (∀ b x, x ∈ (msm_dma_unmap_all_for_dev d s).1.dataIndex b →
      x.dev ≠ d) ∧
    (∀ m ∈ s.devIndex d, Event.extUnmap m.dev m.sg m.nents m.dir ∈
      (msm_dma_unmap_all_for_dev d s).2) := by
  obtain ⟨_, hdevf, hdataf, hevf⟩ := freeList_dev (s.devIndex d) s hWF
    (fun m hm => hWF.dev_key _ m hm) (hWF.dev_nodup d)
    (fun m hm => hm) (fun m hm => hm)
  refine ⟨hdevf, ?_, ?_⟩
  · intro b x hx hxd
    obtain ⟨hx1, hx2⟩ := hdataf b x hx
    apply hx2
    have hb := hWF.data_key b x hx1
    have hxv : x ∈ s.devIndex x.dev := (hWF.sync x).1 (by
      rw [hb]
      exact hx1)
    rw [hxd] at hxv
    exact hxv
  · intro m hm
    show Event.extUnmap m.dev m.sg m.nents m.dir ∈
      (freeList s (s.devIndex d)).2
    rw [hevf]
    exact List.mem_map_of_mem _ hm

/-- C4 witness: a record with refcount 5 (no balanced unmaps pending) is
still torn down. -/
theorem C4_device_teardown_witness :
    (singleState ⟨1, 2, 0, 1, 5, ⟨100, 8⟩⟩).WF ∧
    ((msm_dma_unmap_all_for_dev 1
        (singleState ⟨1, 2, 0, 1, 5, ⟨100, 8⟩⟩)).1.devIndex 1 = [] ∧
     (∀ b x, x ∈ (msm_dma_unmap_all_for_dev 1
        (singleState ⟨1, 2, 0, 1, 5, ⟨100, 8⟩⟩)).1.dataIndex b →
        x.dev ≠ 1) ∧
     (∀ m ∈ (singleState ⟨1, 2, 0, 1, 5, ⟨100, 8⟩⟩).devIndex 1,
        Event.extUnmap m.dev m.sg m.nents m.dir ∈
          (msm_dma_unmap_all_for_dev 1
            (singleState ⟨1, 2, 0, 1, 5, ⟨100, 8⟩⟩)).2)) :=
  ⟨singleState_WF ⟨1, 2, 0, 1, 5, ⟨100, 8⟩⟩,
   C4_device_teardown 1 (singleState ⟨1, 2, 0, 1, 5, ⟨100, 8⟩⟩)
     (singleState_WF ⟨1, 2, 0, 1, 5, ⟨100, 8⟩⟩)⟩

/-- C5 (amended): after msm_dma_buf_freed(B) no record of buffer B
remains in B's index or in any device index, the external unmap
primitive was invoked for every record that was present (even with
outstanding refcounts — no refcount hypothesis), and no consistency
warning is reported by this path. -/
theorem C5_buffer_teardown (b : Buf) (s : MsmState) (hWF : s.WF) :
    (msm_dma_buf_freed b s).1.dataIndex b = [] ∧
    (∀ d x, x ∈ (msm_dma_buf_freed b s).1.devIndex d → x.data ≠ b) ∧
    (∀ m ∈ s.dataIndex b, Event.extUnmap m.dev m.sg m.nents m.dir ∈
      (msm_dma_buf_freed b s).2) ∧
    countWarn (msm_dma_buf_freed b s).2 = 0 := by
  obtain ⟨_, hdataf, hdevf, hevf⟩ := freeList_data (s.dataIndex b) s hWF
    (fun m hm => hWF.data_key _ m hm) (hWF.data_nodup b)
    (fun m hm => hm) (fun m hm => hm)
  refine ⟨hdataf, ?_, ?_, ?_⟩
  · intro d x hx hxb
    obtain ⟨hx1, hx2⟩ := hdevf d x hx
    apply hx2
    have hd := hWF.dev_key d x hx1
    have hxm : x ∈ s.dataIndex x.data := (hWF.sync x).2 (by
      rw [hd]
      exact hx1)
    rw [hxb] at hxm
    exact hxm
  · intro m hm
    show Event.extUnmap m.dev m.sg m.nents m.dir ∈
      (freeList s (s.dataIndex b)).2
    rw [hevf]
    exact List.mem_map_of_mem _ hm
  · show countWarn (freeList s (s.dataIndex b)).2 = 0
    rw [hevf]
    simp [countWarn, List.countP_map, Event.isWarn, Function.comp]

/-- C5 counterexample: a buffer freed while one record with refcount 1
is still cached — msm_dma_buf_freed force-releases it (one external
unmap call) but reports no consistency warning, contrary to the claim
that a warning is reported for each force-released record. -/
theorem C5_counterexample :
    (msm_dma_buf_freed 2
      (singleState ⟨1, 2, 0, 1, 1, ⟨100, 8⟩⟩)).1.dataIndex 2 = [] ∧
    countExtUnmap (msm_dma_buf_freed 2
      (singleState ⟨1, 2, 0, 1, 1, ⟨100, 8⟩⟩)).2 = 1 ∧
    countWarn (msm_dma_buf_freed 2
      (singleState ⟨1, 2, 0, 1, 1, ⟨100, 8⟩⟩)).2 = 0 := by
  decide

/-- C5 witness at a concrete one-record state with refcount 3. -/
theorem C5_buffer_teardown_witness :
    (singleState ⟨1, 2, 0, 1, 3, ⟨100, 8⟩⟩).WF ∧
    ((msm_dma_buf_freed 2
        (singleState ⟨1, 2, 0, 1, 3, ⟨100, 8⟩⟩)).1.dataIndex 2 = [] ∧
     (∀ d x, x ∈ (msm_dma_buf_freed 2
        (singleState ⟨1, 2, 0, 1, 3, ⟨100, 8⟩⟩)).1.devIndex d →
        x.data ≠ 2) ∧
     (∀ m ∈ (singleState ⟨1, 2, 0, 1, 3, ⟨100, 8⟩⟩).dataIndex 2,
        Event.extUnmap m.dev m.sg m.nents m.dir ∈
          (msm_dma_buf_freed 2
            (singleState ⟨1, 2, 0, 1, 3, ⟨100, 8⟩⟩)).2) ∧
     countWarn (msm_dma_buf_freed 2
        (singleState ⟨1, 2, 0, 1, 3, ⟨100, 8⟩⟩)).2 = 0) :=
  ⟨singleState_WF ⟨1, 2, 0, 1, 3, ⟨100, 8⟩⟩,
   C5_buffer_teardown 2 (singleState ⟨1, 2, 0, 1, 3, ⟨100, 8⟩⟩)
     (singleState_WF ⟨1, 2, 0, 1, 3, ⟨100, 8⟩⟩)⟩

/-- C8 counterexample: msm_dma_unmap_sg is void — the call that frees
the record and invokes the external unmap primitive returns the very
same value as the absent-record no-op call, so the returned value
carries no success/failure tag. -/
theorem C8_counterexample :
    (msm_dma_unmap_sg 1 2 (singleState ⟨1, 2, 0, 1, 1, ⟨100, 8⟩⟩)).ret =
      (msm_dma_unmap_sg 1 2 emptyState).ret ∧
    countExtUnmap (msm_dma_unmap_sg 1 2
      (singleState ⟨1, 2, 0, 1, 1, ⟨100, 8⟩⟩)).events = 1 ∧
    countExtUnmap (msm_dma_unmap_sg 1 2 emptyState).events = 0 := by
  decide

/-- C8 (amended): msm_dma_map_sg_attrs returns a tagged result — 0
exactly when the call missed the cache and the external mapping
primitive failed, nonzero otherwise (for a nonzero nents argument) —
while msm_dma_unmap_sg is void: its returned value is always the unique
Unit value, and it never fails. -/
theorem C8_tagged_results (coherent : Dev → Bool) (extN : Nat)
    (extSg : SgAddr) (dev : Dev) (sgIn : SgAddr) (nents : Nat)
    (dir : Direction) (buf : Buf) (attrs : Attrs) (s : MsmState)
    (dev2 : Dev) (buf2 : Buf) (s2 : MsmState) (hnz : nents ≠ 0) :
    ((msm_dma_map_sg_attrs coherent extN extSg dev sgIn nents dir buf
        attrs s).ret = 0 ↔
      (msm_iommu_map_lookup s buf dev = none ∧ extN = 0)) ∧
    (msm_dma_unmap_sg dev2 buf2 s2).ret = () := by
  refine ⟨?_, rfl⟩
  cases hl : msm_iommu_map_lookup s buf dev with
  | some m =>
      rw [map_sg_hit_eq coherent extN extSg dev sgIn nents dir buf attrs
        s hl]
      simp [hnz, hl]
  | none =>
      by_cases hn : extN = 0
      · subst hn
        rw [map_sg_miss_fail_eq coherent extSg dev sgIn nents dir buf
          attrs s hl]
        simp
      · rw [map_sg_miss_succ_eq coherent extN extSg dev sgIn nents dir
          buf attrs s hl hn]
        simp [hn]

/-- C8 witness at concrete inputs. -/
theorem C8_tagged_results_witness :
    (1 : Nat) ≠ 0 ∧
    (((msm_dma_map_sg_attrs (fun _ => false) 0 ⟨100, 8⟩ 1 ⟨0, 0⟩ 1 0 2
        ⟨false, 0⟩ emptyState).ret = 0 ↔
      (msm_iommu_map_lookup emptyState 2 1 = none ∧ (0 : Nat) = 0)) ∧
     (msm_dma_unmap_sg 3 4 emptyState).ret = ()) :=
  ⟨by decide, C8_tagged_results (fun _ => false) 0 ⟨100, 8⟩ 1 ⟨0, 0⟩ 1 0 2
    ⟨false, 0⟩ emptyState 3 4 emptyState (by decide)⟩

theorem mapU_hit_eq (kmallocOk : Bool) (extRet : Nat) (extSg : SgAddr)
    (cloneOk : Bool) (dev : Dev) (sgIn : SgAddr) (sgPhys : Nat)
    (nents : Nat) (dir : Direction) (attrs : Attrs)
    (maps : List IommuMapU) {m : IommuMapU}
    (hfound : msm_iommu_lookup maps dev = some m) :
    __msm_dma_map_sg kmallocOk extRet extSg cloneOk dev sgIn sgPhys nents
        dir attrs maps =
      if nents = m.nents ∧ dir = m.dir ∧ attrs = m.map_attrs ∧
          sgPhys = m.buf_start_addr then
        { ret := (nents : Int), sgOut := m.sgl,
          maps := maps.map (fun x =>
            if x = m then { m with ref := m.ref + 1 } else x) }
      else
        { ret := -22, sgOut := sgIn, maps := maps } := by
  unfold __msm_dma_map_sg
  rw [hfound]

/-- C3 counterexample: the refcount-model hit path performs no
parameter check — a Map call with direction 0 against a record cached
with direction 1 succeeds (returns its nents argument, no error) and
increments the cached record's refcount from 1 to 2, contrary to the
claim that such a call fails with a consistency error and leaves the
record untouched. -/
theorem C3_counterexample :
    (msm_dma_map_sg_attrs (fun _ => false) 1 ⟨0, 0⟩ 1 ⟨0, 0⟩ 1 0 2
      ⟨false, 0⟩ (singleState ⟨1, 2, 1, 1, 1, ⟨100, 8⟩⟩)).ret = 1 ∧
    msm_iommu_map_lookup (msm_dma_map_sg_attrs (fun _ => false) 1 ⟨0, 0⟩
      1 ⟨0, 0⟩ 1 0 2 ⟨false, 0⟩
      (singleState ⟨1, 2, 1, 1, 1, ⟨100, 8⟩⟩)).state 2 1 =
      some ⟨1, 2, 1, 1, 2, ⟨100, 8⟩⟩ := by
  decide

/-- C3 (amended): the consistency check lives in the kref-based
__msm_dma_map_sg path: with a cached record present, a request whose
nents, direction, attribute mask or physical start address differs
fails with -EINVAL (-22) and leaves the record list untouched, while a
matching request returns the cached range and takes a reference; the
refcount-model hit path of msm_dma_map_sg_attrs performs no such
check. -/
theorem C3_mismatch_rejection (kmallocOk : Bool) (extRet : Nat)
    (extSg : SgAddr) (cloneOk : Bool) (dev : Dev) (sgIn : SgAddr)
    (sgPhys : Nat) (nents : Nat) (dir : Direction) (attrs : Attrs)
    (maps : List IommuMapU) (m : IommuMapU)
    (hfound : msm_iommu_lookup maps dev = some m) :
    (¬(nents = m.nents ∧ dir = m.dir ∧ attrs = m.map_attrs ∧
        sgPhys = m.buf_start_addr) →
      (__msm_dma_map_sg kmallocOk extRet extSg cloneOk dev sgIn sgPhys
        nents dir attrs maps).ret = -22 ∧
      (__msm_dma_map_sg kmallocOk extRet extSg cloneOk dev sgIn sgPhys
        nents dir attrs maps).maps = maps) ∧
    ((nents = m.nents ∧ dir = m.dir ∧ attrs = m.map_attrs ∧
        sgPhys = m.buf_start_addr) →
      (__msm_dma_map_sg kmallocOk extRet extSg cloneOk dev sgIn sgPhys
        nents dir attrs maps).ret = (nents : Int) ∧
      (__msm_dma_map_sg kmallocOk extRet extSg cloneOk dev sgIn sgPhys
        nents dir attrs maps).sgOut = m.sgl ∧
      (__msm_dma_map_sg kmallocOk extRet extSg cloneOk dev sgIn sgPhys
        nents dir attrs maps).maps = maps.map (fun x =>
          if x = m then { m with ref := m.ref + 1 } else x)) := by
  rw [mapU_hit_eq kmallocOk extRet extSg cloneOk dev sgIn sgPhys nents
    dir attrs maps hfound]
  constructor
  · intro h
    rw [if_neg h]
    exact ⟨rfl, rfl⟩
  · intro h
    rw [if_pos h]
    exact ⟨rfl, rfl, rfl⟩

/-- C3 witness: a cached record hit with a differing direction is
refused with -EINVAL and the record list is unchanged. -/
theorem C3_mismatch_rejection_witness :
    msm_iommu_lookup [(⟨1, 1, 1, ⟨false, 0⟩, 5, ⟨100, 8⟩, 2⟩ : IommuMapU)]
      1 = some ⟨1, 1, 1, ⟨false, 0⟩, 5, ⟨100, 8⟩, 2⟩ ∧
    ((¬((1 : Nat) = 1 ∧ (0 : Direction) = 1 ∧
        (⟨false, 0⟩ : Attrs) = ⟨false, 0⟩ ∧ (5 : Nat) = 5) →
      (__msm_dma_map_sg true 1 ⟨200, 16⟩ true 1 ⟨0, 0⟩ 5 1 0 ⟨false, 0⟩
        [⟨1, 1, 1, ⟨false, 0⟩, 5, ⟨100, 8⟩, 2⟩]).ret = -22 ∧
      (__msm_dma_map_sg true 1 ⟨200, 16⟩ true 1 ⟨0, 0⟩ 5 1 0 ⟨false, 0⟩
        [⟨1, 1, 1, ⟨false, 0⟩, 5, ⟨100, 8⟩, 2⟩]).maps =
          [⟨1, 1, 1, ⟨false, 0⟩, 5, ⟨100, 8⟩, 2⟩]) ∧
     (((1 : Nat) = 1 ∧ (0 : Direction) = 1 ∧
        (⟨false, 0⟩ : Attrs) = ⟨false, 0⟩ ∧ (5 : Nat) = 5) →
      (__msm_dma_map_sg true 1 ⟨200, 16⟩ true 1 ⟨0, 0⟩ 5 1 0 ⟨false, 0⟩
        [⟨1, 1, 1, ⟨false, 0⟩, 5, ⟨100, 8⟩, 2⟩]).ret = (1 : Nat) ∧
      (__msm_dma_map_sg true 1 ⟨200, 16⟩ true 1 ⟨0, 0⟩ 5 1 0 ⟨false, 0⟩
        [⟨1, 1, 1, ⟨false, 0⟩, 5, ⟨100, 8⟩, 2⟩]).sgOut = ⟨100, 8⟩ ∧
      (__msm_dma_map_sg true 1 ⟨200, 16⟩ true 1 ⟨0, 0⟩ 5 1 0 ⟨false, 0⟩
        [⟨1, 1, 1, ⟨false, 0⟩, 5, ⟨100, 8⟩, 2⟩]).maps =
          [⟨1, 1, 1, ⟨false, 0⟩, 5, ⟨100, 8⟩, 2⟩].map (fun x =>
            if x = ⟨1, 1, 1, ⟨false, 0⟩, 5, ⟨100, 8⟩, 2⟩ then
              ⟨1, 1, 1, ⟨false, 0⟩, 5, ⟨100, 8⟩, 3⟩ else x))) :=
  ⟨rfl, C3_mismatch_rejection true 1 ⟨200, 16⟩ true 1 ⟨0, 0⟩ 5 1 0
    ⟨false, 0⟩ [⟨1, 1, 1, ⟨false, 0⟩, 5, ⟨100, 8⟩, 2⟩]
    ⟨1, 1, 1, ⟨false, 0⟩, 5, ⟨100, 8⟩, 2⟩ rfl⟩

theorem countExtUnmap_append (a b : List Event) :
    countExtUnmap (a ++ b) = countExtUnmap a + countExtUnmap b := by
  simp [countExtUnmap, List.countP_append]

theorem doMaps_zero (coherent : Dev → Bool) (extN : Nat) (extSg : SgAddr)
    (dev : Dev) (sgIn : SgAddr) (nents : Nat) (dir : Direction)
    (buf : Buf) (attrs : Attrs) (s : MsmState) :
    doMaps coherent extN extSg dev sgIn nents dir buf attrs 0 s =
      (s, []) := rfl

theorem doUnmaps_zero (dev : Dev) (buf : Buf) (s : MsmState) :
    doUnmaps dev buf 0 s = (s, []) := rfl

theorem doMaps_succ (coherent : Dev → Bool) (extN : Nat) (extSg : SgAddr)
    (dev : Dev) (sgIn : SgAddr) (nents : Nat) (dir : Direction)
    (buf : Buf) (attrs : Attrs) (k : Nat) (s : MsmState) :
    doMaps coherent extN extSg dev sgIn nents dir buf attrs (k + 1) s =
      ((doMaps coherent extN extSg dev sgIn nents dir buf attrs k
        (msm_dma_map_sg_attrs coherent extN extSg dev sgIn nents dir buf
          attrs s).state).1,
       (msm_dma_map_sg_attrs coherent extN extSg dev sgIn nents dir buf
          attrs s).events ++
        (doMaps coherent extN extSg dev sgIn nents dir buf attrs k
          (msm_dma_map_sg_attrs coherent extN extSg dev sgIn nents dir
            buf attrs s).state).2) := rfl

theorem doUnmaps_succ (dev : Dev) (buf : Buf) (k : Nat) (s : MsmState) :
    doUnmaps dev buf (k + 1) s =
      ((doUnmaps dev buf k (msm_dma_unmap_sg dev buf s).state).1,
       (msm_dma_unmap_sg dev buf s).events ++
        (doUnmaps dev buf k (msm_dma_unmap_sg dev buf s).state).2) := rfl

/-- k further Map calls on a state that already caches the record are
all hits: the record's refcount grows by exactly k and the external
unmap primitive is never invoked. -/
theorem doMaps_hits (coherent : Dev → Bool) (extN : Nat) (extSg : SgAddr)
    (dev : Dev) (sgIn : SgAddr) (nents : Nat) (dir : Direction)
    (buf : Buf) (attrs : Attrs) :
    ∀ (k : Nat) (s : MsmState) (m : MsmIommuMap), s.WF →
      msm_iommu_map_lookup s buf dev = some m →
      (doMaps coherent extN extSg dev sgIn nents dir buf attrs k
        s).1.WF ∧
      (∃ m', msm_iommu_map_lookup
          (doMaps coherent extN extSg dev sgIn nents dir buf attrs k
            s).1 buf dev = some m' ∧
        m'.refcount = m.refcount + k) ∧
      countExtUnmap
        (doMaps coherent extN extSg dev sgIn nents dir buf attrs k
          s).2 = 0 := by
  intro k
  induction k with
  | zero =>
      intro s m hWF hl
      exact ⟨hWF, ⟨m, hl, by simp⟩, rfl⟩
  | succ k ih =>
      intro s m hWF hl
      have hbuf : m.data = buf := hWF.data_key _ _ (lookup_mem hl).1
      have hWF1 :
          (replaceMap s m { m with refcount := m.refcount + 1 }).WF := by
        refine replaceMap_WF hWF ?_ rfl rfl ?_
        · rw [hbuf]
          exact (lookup_mem hl).1
        · intro he
          have h2 := congrArg MsmIommuMap.refcount he
          simp only [] at h2
          omega
      have hl1 : msm_iommu_map_lookup
          (replaceMap s m { m with refcount := m.refcount + 1 }) buf dev =
          some { m with refcount := m.refcount + 1 } :=
        lookup_replaceMap hWF hl rfl
      obtain ⟨hWFf, ⟨m', hm', hrc⟩, hcnt⟩ := ih _ _ hWF1 hl1
      have hstate_eq : (msm_dma_map_sg_attrs coherent extN extSg dev sgIn
          nents dir buf attrs s).state =
          replaceMap s m { m with refcount := m.refcount + 1 } := by
        rw [map_sg_hit_eq coherent extN extSg dev sgIn nents dir buf
          attrs s hl]
      have hevents_eq : (msm_dma_map_sg_attrs coherent extN extSg dev
          sgIn nents dir buf attrs s).events =
          if coherent dev then [Event.barrier] else [] := by
        rw [map_sg_hit_eq coherent extN extSg dev sgIn nents dir buf
          attrs s hl]
      rw [doMaps_succ, hstate_eq, hevents_eq]
      refine ⟨hWFf, ⟨m', hm', ?_⟩, ?_⟩
      · rw [hrc]
        push_cast
        ring
      · rw [countExtUnmap_append, hcnt]
        cases hc : coherent dev <;>
          simp [hc, countExtUnmap, Event.isExtUnmap]

/-- k + 1 Unmap calls on a state whose cached record has refcount k + 1
remove the record from both indexes, with exactly one call of the
external unmap primitive (at the last decrement). -/
theorem doUnmaps_drain (dev : Dev) (buf : Buf) :
    ∀ (k : Nat) (s : MsmState) (m : MsmIommuMap), s.WF →
      msm_iommu_map_lookup s buf dev = some m →
      m.refcount = (k : Int) + 1 →
      noRecord (doUnmaps dev buf (k + 1) s).1 buf dev ∧
      countExtUnmap (doUnmaps dev buf (k + 1) s).2 = 1 := by
  intro k
  induction k with
  | zero =>
      intro s m hWF hl hrc
      simp only [Nat.cast_zero, zero_add] at hrc
      have hz : m.refcount - 1 = 0 := by omega
      have hu : msm_dma_unmap_sg dev buf s =
          { ret := (), state := (msm_iommu_map_free s m).1,
            events := [(msm_iommu_map_free s m).2] } := by
        rw [unmap_sg_some_eq dev buf s hl, if_pos hz]
      rw [doUnmaps_succ, hu]
      constructor
      · exact noRecord_free hWF hl
      · simp [countExtUnmap, Event.isExtUnmap, msm_iommu_map_free,
          doUnmaps_zero]
  | succ k ih =>
      intro s m hWF hl hrc
      push_cast at hrc
      have hnz : ¬ m.refcount - 1 = 0 := by omega
      have hbuf : m.data = buf := hWF.data_key _ _ (lookup_mem hl).1
      have hu : msm_dma_unmap_sg dev buf s =
          { ret := (),
            state := replaceMap s m { m with refcount := m.refcount - 1 },
            events := [] } := by
        rw [unmap_sg_some_eq dev buf s hl, if_neg hnz]
      have hWF1 :
          (replaceMap s m { m with refcount := m.refcount - 1 }).WF := by
        refine replaceMap_WF hWF ?_ rfl rfl ?_
        · rw [hbuf]
          exact (lookup_mem hl).1
        · intro he
          have h2 := congrArg MsmIommuMap.refcount he
          simp only [] at h2
          omega
      have hl1 : msm_iommu_map_lookup
          (replaceMap s m { m with refcount := m.refcount - 1 }) buf dev =
          some { m with refcount := m.refcount - 1 } :=
        lookup_replaceMap hWF hl rfl
      have hrc1 : ({ m with refcount := m.refcount - 1 } :
          MsmIommuMap).refcount = (k : Int) + 1 := by
        simp only []
        omega
      obtain ⟨hnr, hcnt⟩ := ih _ _ hWF1 hl1 hrc1
      rw [doUnmaps_succ, hu]
      refine ⟨hnr, ?_⟩
      simpa using hcnt

/-- C2 (amended): for attrs with DMA_ATTR_NO_DELAYED_UNMAP set, N Map
calls for a fresh (device, buffer, direction, attrs) followed by N Unmap
calls leave the record absent from both indexes and invoke the external
unmap primitive exactly once.  (Without the flag the first Map starts the
refcount at 2, so N matching Unmaps leave the record cached with
refcount 1 and the primitive is not invoked until the buffer is
freed.) -/
theorem C2_refcount_balance (coherent : Dev → Bool) (extN : Nat)
    (extSg : SgAddr) (dev : Dev) (sgIn : SgAddr) (nents : Nat)
    (dir : Direction) (buf : Buf) (attrs : Attrs) (N : Nat) (s : MsmState)
    (hWF : s.WF) (hmiss : msm_iommu_map_lookup s buf dev = none)
    (hflag : attrs.no_delayed_unmap = true) (hext : extN ≠ 0)
    (hN : 1 ≤ N) :
    noRecord (mapUnmapSeq coherent extN extSg dev sgIn nents dir buf
      attrs N s).1 buf dev ∧
    countExtUnmap (mapUnmapSeq coherent extN extSg dev sgIn nents dir
      buf attrs N s).2 = 1 := by
  obtain ⟨n, rfl⟩ : ∃ n, N = n + 1 := ⟨N - 1, by omega⟩
  obtain ⟨m0, hmap1, hm0buf, hm0dev, hm0rc⟩ : ∃ m0 : MsmIommuMap,
      msm_dma_map_sg_attrs coherent extN extSg dev sgIn nents dir buf
          attrs s =
        { ret := extN, sgOut := extSg, state := insertMap s m0,
          events := [Event.extMap dev nents dir attrs] } ∧
      m0.data = buf ∧ m0.dev = dev ∧ m0.refcount = 1 := by
    refine ⟨_, map_sg_miss_succ_eq coherent extN extSg dev sgIn nents dir
      buf attrs s hmiss hext, rfl, rfl, ?_⟩
    show (2 : Int) - (if attrs.no_delayed_unmap then 1 else 0) = 1
    rw [hflag]
    norm_num
  have hWF1 : (insertMap s m0).WF := by
    refine insertMap_WF hWF ?_
    rw [hm0buf, hm0dev]
    exact hmiss
  have hl1 : msm_iommu_map_lookup (insertMap s m0) buf dev = some m0 :=
    lookup_insertMap_of s hm0buf hm0dev
  obtain ⟨hWF2, ⟨m', hl2, hrc⟩, hcnt2⟩ := doMaps_hits coherent extN extSg
    dev sgIn nents dir buf attrs n (insertMap s m0) m0 hWF1 hl1
  have hrc' : m'.refcount = (n : Int) + 1 := by
    rw [hrc, hm0rc]
    ring
  obtain ⟨hnr, hcnt3⟩ := doUnmaps_drain dev buf n _ m' hWF2 hl2 hrc'
  have hstate : (doMaps coherent extN extSg dev sgIn nents dir buf attrs
      (n + 1) s).1 =
      (doMaps coherent extN extSg dev sgIn nents dir buf attrs n
        (insertMap s m0)).1 := by
    rw [doMaps_succ, hmap1]
  have hev : (doMaps coherent extN extSg dev sgIn nents dir buf attrs
      (n + 1) s).2 =
      [Event.extMap dev nents dir attrs] ++
      (doMaps coherent extN extSg dev sgIn nents dir buf attrs n
        (insertMap s m0)).2 := by
    rw [doMaps_succ, hmap1]
  constructor
  · show noRecord (doUnmaps dev buf (n + 1) (doMaps coherent extN extSg
      dev sgIn nents dir buf attrs (n + 1) s).1).1 buf dev
    rw [hstate]
    exact hnr
  · show countExtUnmap ((doMaps coherent extN extSg dev sgIn nents dir
      buf attrs (n + 1) s).2 ++ (doUnmaps dev buf (n + 1)
      (doMaps coherent extN extSg dev sgIn nents dir buf attrs (n + 1)
        s).1).2) = 1
    rw [hstate, hev, countExtUnmap_append, countExtUnmap_append, hcnt2,
      hcnt3]
    simp [countExtUnmap, Event.isExtUnmap]

/-- C2 counterexample: with DMA_ATTR_NO_DELAYED_UNMAP clear the new
record starts at refcount 2, so one Map followed by one matching Unmap
leaves the record present in the indexes with refcount 1 and the
external unmap primitive is never invoked — the balance property as
claimed fails for such attrs. -/
theorem C2_counterexample :
    msm_iommu_map_lookup (mapUnmapSeq (fun _ => false) 1 ⟨100, 8⟩ 1
      ⟨0, 0⟩ 1 0 2 ⟨false, 0⟩ 1 emptyState).1 2 1 =
      some ⟨1, 2, 0, 1, 1, ⟨100, 8⟩⟩ ∧
    countExtUnmap (mapUnmapSeq (fun _ => false) 1 ⟨100, 8⟩ 1 ⟨0, 0⟩ 1 0 2
      ⟨false, 0⟩ 1 emptyState).2 = 0 := by
  decide

/-- C2 witness: one Map with the flag set followed by one Unmap, from
the empty state. -/
theorem C2_refcount_balance_witness :
    msm_iommu_map_lookup emptyState 2 1 = none ∧
    (noRecord (mapUnmapSeq (fun _ => false) 1 ⟨100, 8⟩ 1 ⟨0, 0⟩ 1 0 2
      ⟨true, 0⟩ 1 emptyState).1 2 1 ∧
     countExtUnmap (mapUnmapSeq (fun _ => false) 1 ⟨100, 8⟩ 1 ⟨0, 0⟩ 1 0
      2 ⟨true, 0⟩ 1 emptyState).2 = 1) :=
  ⟨rfl, C2_refcount_balance (fun _ => false) 1 ⟨100, 8⟩ 1 ⟨0, 0⟩ 1 0 2
    ⟨true, 0⟩ 1 emptyState emptyState_WF rfl rfl (by decide)
    (by decide)⟩
